import Mathlib

/-!
Shallow embedding of the CaptureCloud-Agent photography-booking service
(`app/agents/boockingAssistant.py`, `app/agents/pricing_agent.py`,
`app/service/mcp_client.py`, `app/utils/session_manager.py`) together with
theorems settling the specification claims about it.

Python strings are embedded as Lean `String`, Python floats as `ℚ`, Python
dicts either as structures (when the key set is fixed) or as association
lists.  Database tables are embedded as lists of row structures and the
supabase `.eq` filters as `List.filter`.  External effects (LLM completions,
HTTP transports) are passed in as explicit arguments.
-/

/-- Python `str.lower()` (ASCII case folding, as used by the agent). -/
def pyLower (s : String) : String := String.mk (s.data.map Char.toLower)

/-- Whitespace test used by Python `strip`/`split`. -/
def wsChar (c : Char) : Bool := c.isWhitespace

/-- Python `str.strip()` on the character list. -/
def pyStripChars (cs : List Char) : List Char :=
  ((cs.dropWhile wsChar).reverse.dropWhile wsChar).reverse

/-- Python `str.strip()`. -/
def pyStrip (s : String) : String := String.mk (pyStripChars s.data)

/-- Worker for Python `str.split()` (no separator argument): splits on runs
of whitespace and returns no empty tokens.  `acc` holds the reversed
characters of the token currently being read. -/
def pySplitAux : List Char → List Char → List (List Char)
  | [], acc => if acc = [] then [] else [acc.reverse]
  | c :: rest, acc =>
    if wsChar c then
      if acc = [] then pySplitAux rest []
      else acc.reverse :: pySplitAux rest []
    else pySplitAux rest (c :: acc)

/-- Python `str.split()` with no arguments. -/
def pySplit (s : String) : List String := (pySplitAux s.data []).map String.mk

/-- Python substring containment on character lists. -/
def charsIn (needle hay : List Char) : Bool :=
  hay.tails.any (fun t => needle.isPrefixOf t)

/-- Python substring containment `needle in hay`. -/
def strIn (needle hay : String) : Bool :=
  charsIn needle.data hay.data

/-- Python `str.title()` worker: a character is uppercased when the previous
character is not alphabetic, lowercased otherwise. -/
def pyTitleChars : List Char → Bool → List Char
  | [], _ => []
  | c :: rest, prevAlpha =>
    (if prevAlpha then c.toLower else c.toUpper) :: pyTitleChars rest c.isAlpha

/-- Python `str.title()`. -/
def pyTitle (s : String) : String := String.mk (pyTitleChars s.data false)

/-- Python truthiness of an optional string (`None` and `""` are falsy). -/
def truthyStr : Option String → Bool
  | none => false
  | some s => !s.isEmpty

/-- Row of the `bookings` table as selected by `analyze_market`. -/
structure BookingRow where
  final_price : Option ℚ
  location : String
  service_type : String
  status : String
  deriving DecidableEq, Repr

/-- Python truthiness of an optional number (`None` and `0` are falsy),
as in `if b.get("final_price")`. -/
def truthyNum : Option ℚ → Bool
  | none => false
  | some q => q != 0

/-- The `market_data` dictionary built by `analyze_market`. -/
structure MarketData where
  average_price : ℚ
  median_price : ℚ
  min_price : ℚ
  max_price : ℚ
  sample_size : ℕ
  deriving DecidableEq, Repr

/-- `statistics.mean`. -/
def pyMean (l : List ℚ) : ℚ := l.sum / l.length

/-- Stable ascending insertion, for `statistics.median`. -/
def insertAsc (x : ℚ) : List ℚ → List ℚ
  | [] => [x]
  | y :: ys => if y ≤ x then y :: insertAsc x ys else x :: y :: ys

/-- Ascending sort, for `statistics.median`. -/
def sortAsc (l : List ℚ) : List ℚ := l.foldr insertAsc []

/-- `statistics.median`: middle element of the sorted list, or the mean of
the two middle elements when the length is even. -/
def pyMedian (l : List ℚ) : ℚ :=
  let s := sortAsc l
  let n := s.length
  if n % 2 = 1 then s.getD (n / 2) 0
  else (s.getD (n / 2 - 1) 0 + s.getD (n / 2) 0) / 2

/-- Python `min(l)` with 0 for the guarded empty case. -/
def listMin (l : List ℚ) : ℚ :=
  match l with
  | [] => 0
  | x :: xs => xs.foldl min x

/-- Python `max(l)` with 0 for the guarded empty case. -/
def listMax (l : List ℚ) : ℚ :=
  match l with
  | [] => 0
  | x :: xs => xs.foldl max x

/-- `PricingPackageAgent.analyze_market`: the supabase query filters the
`bookings` table on equal `service_type`, equal `location` and
`status == "completed"`; the agent then aggregates the truthy
`final_price` values (zero-filled when there is no data). -/
def analyze_market (bookings_table : List BookingRow)
    (service_type location : String) : MarketData :=
  let bookings := bookings_table.filter (fun b =>
    b.service_type == service_type && b.location == location && b.status == "completed")
  if bookings.isEmpty then
    { average_price := 0, median_price := 0, min_price := 0, max_price := 0, sample_size := 0 }
  else
    let prices := bookings.filterMap (fun b =>
      if truthyNum b.final_price then b.final_price else none)
    { average_price := if prices.isEmpty then 0 else pyMean prices
      median_price := if prices.isEmpty then 0 else pyMedian prices
      min_price := listMin prices
      max_price := listMax prices
      sample_size := prices.length }

/-- Row of the `photographers` table as used by `get_competitor_prices`
(the query selects `id, base_price, hourly_rate, location`; the table also
carries `is_active`, which this query does not filter on). -/
structure PhotographerPriceRow where
  id : String
  base_price : ℚ
  hourly_rate : ℚ
  location : String
  is_active : Bool
  deriving DecidableEq, Repr

/-- `PricingPackageAgent.get_competitor_prices`: the supabase query filters
the `photographers` table on equal `location` only; every row with a
different `id` contributes `base_price + hourly_rate * duration_hours`,
kept only when strictly positive. -/
def get_competitor_prices (photographers_table : List PhotographerPriceRow)
    (photographer_id location : String) (duration_hours : ℚ) : List ℚ :=
  (photographers_table.filter (fun r => r.location == location)).filterMap (fun r =>
    if r.id != photographer_id then
      let estimated := r.base_price + r.hourly_rate * duration_hours
      if estimated > 0 then some estimated else none
    else none)

/-- Competitor prices as the spec sentence of claim C4 words them: the
estimate `base_price + hourly_rate * duration_hours` for every other
*active* photographer in the request location (no further filtering). -/
def spec_competitor_prices (photographers_table : List PhotographerPriceRow)
    (photographer_id location : String) (duration_hours : ℚ) : List ℚ :=
  (photographers_table.filter (fun r =>
    r.is_active && r.location == location && r.id != photographer_id)).map
    (fun r => r.base_price + r.hourly_rate * duration_hours)

/-- Competitor prices as the code computes them, restated in the spec
map-and-filter style: every other photographer in the location regardless of
`is_active`, keeping only strictly positive estimates. -/
def amended_competitor_prices (photographers_table : List PhotographerPriceRow)
    (photographer_id location : String) (duration_hours : ℚ) : List ℚ :=
  ((photographers_table.filter (fun r =>
    r.location == location && r.id != photographer_id)).map
    (fun r => r.base_price + r.hourly_rate * duration_hours)).filter (fun q => q > 0)

/-- `PricingPackageAgent._extract_price`, first regex match
`\d+\.?\d*`: leading digit run, optional dot, trailing digit run.
Returns the integer and fractional digit lists of the first match. -/
def findFirstNumber : List Char → Option (List Char × List Char)
  | [] => none
  | c :: rest =>
    if c.isDigit then
      let ds := (c :: rest).takeWhile Char.isDigit
      match (c :: rest).dropWhile Char.isDigit with
      | '.' :: rest2 => some (ds, rest2.takeWhile Char.isDigit)
      | _ => some (ds, [])
    else findFirstNumber rest

/-- Decimal digit list to natural number. -/
def digitsToNat (ds : List Char) : ℕ :=
  ds.foldl (fun acc c => 10 * acc + (c.toNat - Char.toNat (Char.ofNat 48))) 0

/-- Value of the first decimal number in the text (`float(numbers[0])`). -/
def extract_price_value (s : String) : Option ℚ :=
  (findFirstNumber s.data).map (fun p =>
    (digitsToNat p.1 : ℚ) + (digitsToNat p.2 : ℚ) / (10 : ℚ) ^ p.2.length)

/-- `PricingPackageAgent._extract_price`: accept the first number of the
completion when it lies in `[50, 10000]`, otherwise fall back to the market
average when it is positive, otherwise to `200 * duration_hours`. -/
def extract_price (llm_response : String) (market_data : MarketData)
    (duration_hours : ℚ) : ℚ :=
  match extract_price_value llm_response with
  | some price =>
    if 50 ≤ price ∧ price ≤ 10000 then price
    else if market_data.average_price > 0 then market_data.average_price
    else 200 * duration_hours
  | none =>
    if market_data.average_price > 0 then market_data.average_price
    else 200 * duration_hours

/-- A row of the `packages` relation fetched with each photographer. -/
structure Package where
  id : String
  name : String
  price : ℚ
  description : String
  is_active : Bool
  deriving DecidableEq, Repr

/-- The `users!inner` relation fetched with each photographer. -/
structure UserRow where
  first_name : String
  last_name : String
  email : String
  deriving DecidableEq, Repr

/-- Row of the `photographers` table as selected by the booking assistant
(`id, portfolio_style, location, rating, is_active` plus the nested user
and package relations). -/
structure PhotographerRow where
  id : String
  portfolio_style : String
  location : String
  rating : ℚ
  is_active : Bool
  users : UserRow
  packages : List Package
  deriving DecidableEq, Repr

/-- The requirements dictionary of an intent: the keys the workflow reads
(`shoot_date`, `location`, `outdoor`). -/
structure Requirements where
  shoot_date : Option String
  location : Option String
  outdoor : Bool
  deriving DecidableEq, Repr

/-- The empty requirements dictionary `{}`. -/
def emptyRequirements : Requirements :=
  { shoot_date := none, location := none, outdoor := false }

/-- The active packages of a photographer row. -/
def active_packages (p : PhotographerRow) : List Package :=
  p.packages.filter (·.is_active)

/-- The lowered, stripped full name used by `_find_photographers_by_name`. -/
def fullNameOf (p : PhotographerRow) : String :=
  pyStrip (pyLower p.users.first_name ++ " " ++ pyLower p.users.last_name)

/-- The match condition of `_find_photographers_by_name`: case-insensitive
full-name equality, any-token-substring match, or a single token equal to
the first or last name. -/
def nameMatches (name : String) (p : PhotographerRow) : Bool :=
  let first_name := pyLower p.users.first_name
  let last_name := pyLower p.users.last_name
  let full_name := pyStrip (first_name ++ " " ++ last_name)
  let name_parts := pySplit (pyLower name)
  (pyLower name == full_name) ||
  name_parts.any (fun part => strIn part full_name) ||
  (name_parts.length == 1 &&
    (name_parts.getD 0 "" == first_name || name_parts.getD 0 "" == last_name))

/-- The match dictionary built for each photographer found by name. -/
structure MatchRec where
  id : String
  name : String
  email : String
  location : String
  rating : ℚ
  packages : List Package
  min_price : ℚ
  max_price : ℚ
  deriving DecidableEq, Repr

/-- The match dictionary for one photographer (title-cased full name and
the price range of the active packages). -/
def mkMatchRec (p : PhotographerRow) : MatchRec :=
  let aps := active_packages p
  { id := p.id
    name := pyTitle (fullNameOf p)
    email := p.users.email
    location := p.location
    rating := p.rating
    packages := aps
    min_price := listMin (aps.map (·.price))
    max_price := listMax (aps.map (·.price)) }

/-- `BookingAssistant._find_photographers_by_name`: among active
photographers (the query filters `is_active`), keep those whose name
matches and that have at least one active package. -/
def find_photographers_by_name (name : String)
    (photographers_table : List PhotographerRow) : List MatchRec :=
  (photographers_table.filter (·.is_active)).filterMap (fun p =>
    if nameMatches name p then
      if (active_packages p).isEmpty then none else some (mkMatchRec p)
    else none)

/-- `BookingAssistant._calculate_match_score_with_price_context`. -/
def calculate_match_score_with_price_context (photographer : PhotographerRow)
    (requirements : Requirements)
    (photographer_min_price pool_min_price pool_max_price : ℚ) : ℚ :=
  let score : ℚ := (photographer.rating / 5) * 60
  let score : ℚ :=
    if pool_max_price > pool_min_price then
      score + ((pool_max_price - photographer_min_price) /
        (pool_max_price - pool_min_price)) * 10
    else score + 5
  let req_location := pyLower (requirements.location.getD "")
  let photo_location := pyLower photographer.location
  let score : ℚ :=
    if !req_location.isEmpty && !photo_location.isEmpty &&
        (strIn req_location photo_location || strIn photo_location req_location) then
      score + 20
    else score
  let score : ℚ := if !photographer.packages.isEmpty then score + 10 else score
  min score 100

/-- `BookingAssistant._generate_match_reason`: tiered label from the score
plus conditional tags, joined with commas. -/
def generate_match_reason (photographer : PhotographerRow)
    (requirements : Requirements) (score : ℚ)
    (photographer_price pool_min_price : ℚ) : String :=
  let base :=
    if score ≥ 80 then ["Excellent match"]
    else if score ≥ 60 then ["Good match"]
    else ["Potential match"]
  let r1 := base ++ (if photographer.rating ≥ (9 : ℚ) / 2 then ["highly rated"] else [])
  let r2 := r1 ++
    (if photographer_price > 0 ∧ pool_min_price > 0 then
      (if photographer_price = pool_min_price then ["lowest price"]
       else if photographer_price ≤ pool_min_price * ((6 : ℚ) / 5) then ["great value"]
       else if photographer_price ≤ pool_min_price * ((3 : ℚ) / 2) then ["competitive pricing"]
       else [])
     else [])
  let req_location := pyLower (requirements.location.getD "")
  let photo_location := pyLower photographer.location
  let r3 := r2 ++
    (if !req_location.isEmpty && !photo_location.isEmpty &&
        (strIn req_location photo_location || strIn photo_location req_location) then
      ["local photographer"]
     else [])
  String.intercalate ", " r3

/-- One entry of the ranked recommendation list (a match dictionary with
`match_score` and `match_reason` added, `photographer_data` deleted). -/
structure RecEntry where
  id : String
  name : String
  email : String
  location : String
  rating : ℚ
  packages : List Package
  min_price : ℚ
  max_price : ℚ
  match_score : ℚ
  match_reason : String
  deriving DecidableEq, Repr

/-- The intermediate `valid_photographers` entry (before scoring). -/
structure ValidRec where
  photographer_data : PhotographerRow
  name : String
  packages : List Package
  min_price : ℚ
  max_price : ℚ
  deriving DecidableEq, Repr

/-- Stable descending insertion by `match_score` (Python `list.sort` with
`reverse=True` is stable: an earlier entry stays before later entries of
equal score). -/
def insertDescBy (x : RecEntry) : List RecEntry → List RecEntry
  | [] => [x]
  | y :: ys => if x.match_score < y.match_score then y :: insertDescBy x ys
    else x :: y :: ys

/-- Stable descending sort by `match_score`. -/
def sortByScoreDesc (l : List RecEntry) : List RecEntry := l.foldr insertDescBy []

/-- `BookingAssistant._get_photographer_recommendations`: active
photographers with at least one active package are scored against the
pool price bounds; entries with positive score are kept, sorted by
descending score, capped at 10. -/
def get_photographer_recommendations (photographers_table : List PhotographerRow)
    (requirements : Requirements) : List RecEntry :=
  let valid : List ValidRec := (photographers_table.filter (·.is_active)).filterMap (fun p =>
    let aps := active_packages p
    if aps.isEmpty then none
    else some
      { photographer_data := p
        name := pyTitle (pyStrip (p.users.first_name ++ " " ++ p.users.last_name))
        packages := aps
        min_price := listMin (aps.map (·.price))
        max_price := listMax (aps.map (·.price)) })
  if valid.isEmpty then []
  else
    let all_prices := valid.map (·.min_price)
    let min_price_in_pool := listMin all_prices
    let max_price_in_pool := listMax all_prices
    let scored := valid.filterMap (fun v =>
      let score := calculate_match_score_with_price_context v.photographer_data
        requirements v.min_price min_price_in_pool max_price_in_pool
      if score > 0 then
        some
          { id := v.photographer_data.id
            name := v.name
            email := v.photographer_data.users.email
            location := v.photographer_data.location
            rating := v.photographer_data.rating
            packages := v.packages
            min_price := v.min_price
            max_price := v.max_price
            match_score := score
            match_reason := generate_match_reason v.photographer_data requirements
              score v.min_price min_price_in_pool }
      else none)
    (sortByScoreDesc scored).take 10

/-- The availability tool result dictionary, as read by `_create_booking`
via `availability_result.get("available", True)` and `.get("reason",
"Unavailable")`.  An error payload from the tool gateway has neither key,
which this embedding renders as `none` fields. -/
structure AvailResult where
  available : Option Bool
  reason : Option String
  deriving DecidableEq, Repr

/-- The weather tool result dictionary, read via
`weather_result.get("good_for_outdoor_shoot", True)`.  `condition` stands
for the rest of the payload, so that two distinct weather results can be
told apart. -/
structure WeatherResult where
  good_for_outdoor_shoot : Option Bool
  condition : String
  deriving DecidableEq, Repr

/-- Outcome of the `httpx` POST to the booking-creation endpoint:
a response with its status code and the `id` field of its JSON body,
or an exception in the request block. -/
inductive PostOutcome where
  | response (status_code : ℕ) (booking_id : Option String)
  | exn
  deriving DecidableEq, Repr

/-- The `booking_details` dictionary of a successful booking response. -/
structure BookingDetails where
  booking_id : Option String
  photographer_name : String
  package_name : String
  price : ℚ
  status : String
  deriving DecidableEq, Repr

/-- A workflow response dictionary.  Keys absent from a given Python
response dict are embedded as `none` / `[]` / `false`. -/
structure BResponse where
  success : Bool
  rtype : String
  message : String
  suggested_action : Option String
  suggestions : List String
  options_text : List String
  examples : List String
  reason : Option String
  booking_details : Option BookingDetails
  next_steps : Option String
  weather_warning : Bool
  weather_info : Option WeatherResult
  weather_status : Option String
  recommendation : Option String
  deriving DecidableEq, Repr

/-- A response dict holding only `success`, `type` and `message`. -/
def baseResponse (success : Bool) (rtype message : String) : BResponse :=
  { success := success
    rtype := rtype
    message := message
    suggested_action := none
    suggestions := []
    options_text := []
    examples := []
    reason := none
    booking_details := none
    next_steps := none
    weather_warning := false
    weather_info := none
    weather_status := none
    recommendation := none }

/-- Python `min(packages, key=lambda x: x["price"])`: the first package of
minimal price. -/
def minPackageByPrice (pkg : Package) (rest : List Package) : Package :=
  rest.foldl (fun acc x => if x.price < acc.price then x else acc) pkg

/-- `BookingAssistant._create_booking`, with the external effects passed in
(the availability tool result, the weather tool result and the outcome of
the POST to the booking endpoint).  The second component records whether
the booking request was posted to the backend at all. -/
def create_booking (photographer : MatchRec) (requirements : Requirements)
    (client_id : String) (availability_result : AvailResult)
    (weather_result : WeatherResult) (post_result : PostOutcome) :
    BResponse × Bool :=
  match photographer.packages with
  | [] =>
    (baseResponse false "no_packages"
      (photographer.name ++ " doesn\x27t have any active packages."), false)
  | pkg :: rest =>
    let selected_package := minPackageByPrice pkg rest
    if truthyStr requirements.shoot_date &&
        !(availability_result.available.getD true) then
      ({ baseResponse false "not_available"
          (photographer.name ++ " is not available on " ++
            requirements.shoot_date.getD "" ++
            ". Would you like to check other dates?") with
          reason := some (availability_result.reason.getD "Unavailable") }, false)
    else
      let weather_checked := truthyStr requirements.location &&
        truthyStr requirements.shoot_date && requirements.outdoor
      match post_result with
      | .response status_code booking_id =>
        if status_code == 200 then
          let response_data :=
            { baseResponse true "booking_created"
                ("Perfect! I\x27ve sent a booking request to " ++ photographer.name ++
                  " for the " ++ selected_package.name ++ " ($" ++
                  toString selected_package.price ++ ").") with
              booking_details := some
                { booking_id := booking_id
                  photographer_name := photographer.name
                  package_name := selected_package.name
                  price := selected_package.price
                  status := "pending_photographer_approval" }
              next_steps := some (photographer.name ++
                " will be notified and will respond within 24 hours.") }
          let response_data :=
            if weather_checked then
              if !(weather_result.good_for_outdoor_shoot.getD true) then
                { response_data with
                  weather_warning := true
                  weather_info := some weather_result
                  recommendation := some "Consider indoor backup or rescheduling" }
              else
                { response_data with
                  weather_info := some weather_result
                  weather_status := some "Good conditions expected!" }
            else response_data
          (response_data, true)
        else
          (baseResponse false "backend_error"
            "I found the photographer but couldn\x27t create the booking. Please try again.",
            true)
      | .exn =>
        (baseResponse false "connection_error"
          "I found the photographer but couldn\x27t connect to our booking system. Please try again.",
          true)

/-- An intent dictionary, restricted to the keys the workflow reads
(`type`, `photographer_name` and `requirements` with their `.get`
defaults, plus the attached `original_message`). -/
structure IntentData where
  itype : String
  photographer_name : String
  requirements : Requirements
  original_message : Option String
  deriving DecidableEq, Repr

/-- The per-conversation session-state dictionary, restricted to the keys
the booking workflow reads or writes. -/
structure SessState where
  step : String
  recommendations : List RecEntry
  original_requirements : Option Requirements
  photographer_matches : List MatchRec
  original_intent : Option IntentData
  deriving DecidableEq, Repr

/-- The fresh session `{"step": "initial"}`. -/
def initialSession : SessState :=
  { step := "initial"
    recommendations := []
    original_requirements := none
    photographer_matches := []
    original_intent := none }

/-- Result of running a Python handler: a value, or an uncaught
`KeyError` escaping the workflow. -/
inductive PyResult (α : Type) where
  | ok (value : α)
  | keyError (key : String)
  deriving DecidableEq, Repr

/-- `BookingAssistant._handle_direct_booking_step`.  The multiple-match
branch first mutates the session (`step = clarifying_photographer`,
matches, original intent) and then builds its options list, which reads
`match["portfolio_style"]` — a key the match dictionaries do not have, so
that branch raises `KeyError` after the session update. -/
def handle_direct_booking_step (intent : IntentData) (client_id : String)
    (session : SessState) (photographers_table : List PhotographerRow)
    (availability_result : AvailResult) (weather_result : WeatherResult)
    (post_result : PostOutcome) : PyResult BResponse × SessState :=
  let photographer_name := intent.photographer_name
  let found := find_photographers_by_name photographer_name photographers_table
  match found with
  | [] =>
    (.ok { baseResponse false "photographer_not_found"
        ("I couldn\x27t find a photographer named \x27" ++ photographer_name ++
          "\x27. Would you like me to show you available photographers instead?") with
        suggested_action := some "show_recommendations" }, session)
  | [photographer] =>
    (.ok (create_booking photographer intent.requirements client_id
      availability_result weather_result post_result).1, session)
  | _ :: _ :: _ =>
    let session2 := { session with
      step := "clarifying_photographer"
      photographer_matches := found
      original_intent := some intent }
    (.keyError "portfolio_style", session2)

/-- `BookingAssistant._handle_recommendation_step`.  The non-empty branch
first mutates the session (`step = showing_options`, the ranked list, the
original requirements) and then builds its options list, which reads
`rec["portfolio_style"]` — a key the recommendation entries do not have,
so that branch raises `KeyError` after the session update. -/
def handle_recommendation_step (intent : IntentData) (session : SessState)
    (photographers_table : List PhotographerRow) : PyResult BResponse × SessState :=
  let requirements := intent.requirements
  let recommendations := get_photographer_recommendations photographers_table requirements
  match recommendations with
  | [] =>
    (.ok { baseResponse false "no_matches"
        "I couldn\x27t find any photographers matching your requirements. Would you like to adjust your criteria?" with
        suggestions := ["Try different dates", "Expand location", "Adjust budget"] }, session)
  | _ :: _ =>
    let session2 := { session with
      step := "showing_options"
      recommendations := recommendations
      original_requirements := some requirements }
    (.keyError "portfolio_style", session2)

/-- `BookingAssistant._handle_unclear_step`: fixed clarification prompt,
no session mutation. -/
def handle_unclear_step (session : SessState) : PyResult BResponse × SessState :=
  (.ok { baseResponse false "need_clarification"
      "I\x27d be happy to help you book a photographer! You can either:" with
      options_text :=
        ["Tell me the name of a specific photographer you\x27d like to book",
         "Describe what kind of photography you need and I\x27ll show you recommendations"]
      examples :=
        ["\"I want to book Sarah Johnson\"",
         "\"I need a wedding photographer for December 15th\""] }, session)

/-- All start indices `i` with `cs[i] = a` and `cs[i+1] = b`. -/
def pairIdxs (a b : Char) : List Char → List ℕ
  | [] => []
  | [_] => []
  | c1 :: c2 :: rest =>
    let tailIdxs := (pairIdxs a b (c2 :: rest)).map (· + 1)
    if c1 = a ∧ c2 = b then 0 :: tailIdxs else tailIdxs

/-- `re.search` with the raw pattern `\\{.*\\}` and `re.DOTALL`: it matches a
literal backslash, a literal open brace, any characters (greedy, newlines
included), a literal backslash and a literal close brace.  `re.search`
takes the leftmost start at which a full match exists; the greedy `.*`
then extends to the last backslash-close-brace pair.  Returns the matched
text. -/
def reSearchBsBraces (s : String) : Option String :=
  let cs := s.data
  let opens := pairIdxs '\x5c' '\x7b' cs
  let closes := pairIdxs '\x5c' '\x7d' cs
  match opens.find? (fun i => closes.any (fun j => i + 2 ≤ j)) with
  | none => none
  | some i =>
    let j := (closes.filter (fun j => i + 2 ≤ j)).foldl max 0
    some (String.mk ((cs.drop i).take (j + 2 - i)))

/-- The unclear intent `{"type": "unclear", "original_message": message}`. -/
def unclearIntent (message : String) : IntentData :=
  { itype := "unclear"
    photographer_name := ""
    requirements := emptyRequirements
    original_message := some message }

/-- `BookingAssistant.analyze_intent`.  When the session step is
`showing_options` the raw message becomes a selection intent without any
LLM call.  Otherwise the LLM completion text is scanned with
`re.search` with the raw pattern `\\{.*\\}` and `re.DOTALL`; on a match the text is passed to
`json.loads` (embedded as the `loads` argument, `none` meaning the parse
raised) and the original message is attached; a missing match or any
exception yields the unclear intent. -/
def analyze_intent (message : String) (session : SessState)
    (llm_completion : String) (loads : String → Option IntentData) : IntentData :=
  if session.step == "showing_options" then
    { itype := "selection_from_options"
      photographer_name := pyStrip message
      requirements := emptyRequirements
      original_message := none }
  else
    match reSearchBsBraces llm_completion with
    | none => unclearIntent message
    | some matched =>
      match loads matched with
      | some intent => { intent with original_message := some message }
      | none => unclearIntent message

/-- `BookingAssistant.process_request`: dispatch on the intent tag. -/
def process_request (intent : IntentData) (client_id : String)
    (session : SessState) (photographers_table : List PhotographerRow)
    (availability_result : AvailResult) (weather_result : WeatherResult)
    (post_result : PostOutcome) : PyResult BResponse × SessState :=
  if intent.itype == "direct_booking" || intent.itype == "selection_from_options" then
    handle_direct_booking_step intent client_id session photographers_table
      availability_result weather_result post_result
  else if intent.itype == "recommendation_request" then
    handle_recommendation_step intent session photographers_table
  else
    handle_unclear_step session

/-- One full turn of the booking workflow
(`analyze_intent → process_request → finalize_response`; the final stage
only marks completion). -/
def run_booking_turn (message client_id : String) (session : SessState)
    (photographers_table : List PhotographerRow) (llm_completion : String)
    (loads : String → Option IntentData) (availability_result : AvailResult)
    (weather_result : WeatherResult) (post_result : PostOutcome) :
    PyResult BResponse × SessState :=
  let intent := analyze_intent message session llm_completion loads
  process_request intent client_id session photographers_table
    availability_result weather_result post_result

/-- HTTP method chosen by `MCPClient._make_request`. -/
inductive HttpMethod where
  | get
  | post
  deriving DecidableEq, Repr

/-- What the transport did for one request: a response carrying its status
code, its JSON body (`Except.error` when `response.json()` raises) and its
text; a timeout; or any other transport exception. -/
inductive TransportOutcome (J : Type) where
  | response (status_code : ℕ) (body : Except String J) (text : String)
  | timeout
  | exn (msg : String)

/-- Result dictionary of `MCPClient._make_request`: either the parsed JSON
body of a 200 response, or a dictionary carrying an `error` key (and
possibly a `message` key). -/
inductive MCPResult (J : Type) where
  | payload (body : J)
  | errorDict (error : String) (message : Option String)
  deriving DecidableEq, Repr

/-- The fixed `base_urls` table of `MCPClient`. -/
def mcp_base_urls : List (String × String) :=
  [("availability", "http://localhost:8082"),
   ("weather", "http://localhost:8084"),
   ("search", "http://localhost:8085")]

/-- Dictionary lookup on an association list. -/
def lookupStr (k : String) (l : List (String × String)) : Option String :=
  (l.find? (fun p => p.1 == k)).map (·.2)

/-- The method choice of `MCPClient._make_request`: `if data:` — a `None`
or empty payload is sent as GET, a non-empty payload as POST. -/
def mcp_method (data : Option (List (String × String))) : HttpMethod :=
  match data with
  | none => HttpMethod.get
  | some d => if d.isEmpty then HttpMethod.get else HttpMethod.post

/-- `MCPClient._make_request`, with the transport passed in as a function
from the chosen method and URL to its outcome.  The second component
records the network call that was issued, if any.  An unknown server name
returns an error dictionary without consulting the transport; a payload
that is `None` or empty is sent as GET, otherwise as POST (`if data:`);
a non-200 status, a timeout, a JSON-decode failure or any exception is
converted to an error dictionary — the function is total, so no exception
reaches the caller. -/
def make_request {J : Type} (server endpoint : String)
    (data : Option (List (String × String)))
    (transport : HttpMethod → String → TransportOutcome J) :
    MCPResult J × Option (HttpMethod × String) :=
  match lookupStr server mcp_base_urls with
  | none => (.errorDict ("Unknown MCP server: " ++ server) none, none)
  | some base =>
    let url := base ++ endpoint
    let method := mcp_method data
    match transport method url with
    | .response status_code body text =>
      if status_code == 200 then
        match body with
        | .ok j => (.payload j, some (method, url))
        | .error e => (.errorDict ("Connection failed: " ++ e) none, some (method, url))
      else
        (.errorDict ("HTTP " ++ toString status_code) (some text), some (method, url))
    | .timeout =>
      (.errorDict ("Timeout connecting to " ++ server ++ " server") none,
        some (method, url))
    | .exn e =>
      (.errorDict ("Connection failed: " ++ e) none, some (method, url))

/-- One stored session message (timestamps are abstract instants `ℕ`). -/
structure SessionMessage where
  message_type : String
  content : String
  timestamp : ℕ
  metadata : List (String × String)
  deriving DecidableEq, Repr

/-- Keys of a Python dict embedded as an association list. -/
def alKeys {V : Type} (l : List (String × V)) : List String := l.map Prod.fst

/-- `key in dict`. -/
def alContains {V : Type} (k : String) (l : List (String × V)) : Bool :=
  l.any (fun p => p.1 == k)

/-- `dict.get(key)`. -/
def alGet {V : Type} (k : String) (l : List (String × V)) : Option V :=
  (l.find? (fun p => p.1 == k)).map (·.2)

/-- `dict[key] = v` (update in place, or append preserving insertion
order). -/
def alSet {V : Type} (k : String) (v : V) (l : List (String × V)) :
    List (String × V) :=
  if alContains k l then l.map (fun p => if p.1 == k then (k, v) else p)
  else l ++ [(k, v)]

/-- `del dict[key]`. -/
def alErase {V : Type} (k : String) (l : List (String × V)) :
    List (String × V) :=
  l.filter (fun p => p.1 != k)

/-- The three internal maps of `SessionManager`. -/
structure SessionManagerState where
  sessions : List (String × List SessionMessage)
  session_metadata : List (String × List (String × String))
  last_activity : List (String × ℕ)
  deriving DecidableEq, Repr

/-- The empty `SessionManager` state built by `__init__`. -/
def emptySessionManager : SessionManagerState :=
  { sessions := [], session_metadata := [], last_activity := [] }

/-- `SessionManager.add_message` (clock instant passed in as `now`):
creates the session entry and its metadata entry when absent, appends the
message, and stamps `last_activity`. -/
def add_message (s : SessionManagerState)
    (session_id message_type content : String)
    (metadata : Option (List (String × String))) (now : ℕ) :
    SessionManagerState :=
  let s1 :=
    if !alContains session_id s.sessions then
      { s with
        sessions := alSet session_id [] s.sessions
        session_metadata := alSet session_id (metadata.getD []) s.session_metadata }
    else s
  let message : SessionMessage :=
    { message_type := message_type
      content := content
      timestamp := now
      metadata := metadata.getD [] }
  { s1 with
    sessions := alSet session_id ((alGet session_id s1.sessions).getD [] ++ [message])
      s1.sessions
    last_activity := alSet session_id now s1.last_activity }

/-- `SessionManager.get_session_history`: returns the stored messages and
touches `last_activity` for a known session, leaves the state alone
otherwise. -/
def get_session_history (s : SessionManagerState) (session_id : String)
    (now : ℕ) : SessionManagerState × List SessionMessage :=
  if !alContains session_id s.sessions then (s, [])
  else
    ({ s with last_activity := alSet session_id now s.last_activity },
      (alGet session_id s.sessions).getD [])

/-- `SessionManager.clear_session`: deletes the session from all three
maps when present. -/
def clear_session (s : SessionManagerState) (session_id : String) :
    SessionManagerState × Bool :=
  if alContains session_id s.sessions then
    ({ sessions := alErase session_id s.sessions
       session_metadata := alErase session_id s.session_metadata
       last_activity := alErase session_id s.last_activity }, true)
  else (s, false)

/-- `SessionManager._cleanup_inactive_sessions`: collects the ids whose
last activity lies more than `timeout` before `now` and deletes them from
all three maps, returning how many were removed. -/
def cleanup_inactive_sessions (s : SessionManagerState) (now timeout : ℕ) :
    SessionManagerState × ℕ :=
  let inactive := (s.last_activity.filter (fun p => now - p.2 > timeout)).map Prod.fst
  ({ sessions := inactive.foldl (fun l k => alErase k l) s.sessions
     session_metadata := inactive.foldl (fun l k => alErase k l) s.session_metadata
     last_activity := inactive.foldl (fun l k => alErase k l) s.last_activity },
    inactive.length)

/-- The two key sets of two dicts coincide. -/
def sameKeysB {V W : Type} (l1 : List (String × V)) (l2 : List (String × W)) :
    Bool :=
  (alKeys l1).all (fun k => alContains k l2) &&
  (alKeys l2).all (fun k => alContains k l1)

/-- The implicit `SessionManager` invariant of claim C10: `_sessions`,
`_session_metadata` and `_last_activity` hold exactly the same session
ids. -/
def session_maps_invariant (s : SessionManagerState) : Bool :=
  sameKeysB s.sessions s.session_metadata && sameKeysB s.sessions s.last_activity

/-- A `_make_request` result that is an error dictionary (carries the
`error` key). -/
def isErrorDict {J : Type} : MCPResult J → Bool
  | .payload _ => false
  | .errorDict _ _ => true

def c9_intent : IntentData :=
  { itype := "direct_booking"
    photographer_name := "Sarah Johnson"
    requirements := emptyRequirements
    original_message := some "I want to book Sarah Johnson" }

def c9_row : PhotographerRow :=
  { id := "ph-9"
    portfolio_style := "portrait"
    location := "Boston"
    rating := 4
    is_active := true
    users := { first_name := "John", last_name := "Doe", email := "jd@x.com" }
    packages := [{ id := "pk-9", name := "Mini", price := 150, description := "", is_active := true }] }

def c9_table : List PhotographerRow := [c9_row]

def c3_photographer : MatchRec :=
  { id := "ph-1"
    name := "Sarah Johnson"
    email := "s@x.com"
    location := "New York"
    rating := 5
    packages := [{ id := "pk-1", name := "Basic", price := 500, description := "", is_active := true }]
    min_price := 500
    max_price := 500 }

def c3_requirements : Requirements :=
  { shoot_date := some "2025-12-15", location := some "New York", outdoor := true }

def c3_blocked_avail : AvailResult :=
  { available := some false, reason := some "Fully booked" }

def c4_table : List PhotographerPriceRow :=
  [{ id := "p2", base_price := 100, hourly_rate := 0, location := "Austin", is_active := false }]

def c10_state : SessionManagerState :=
  { sessions := [("booking-123",
      [{ message_type := "questionnaire", content := "What style are you looking for?",
         timestamp := 3, metadata := [("client_id", "user-456")] }])]
    session_metadata := [("booking-123", [("client_id", "user-456")])]
    last_activity := [("booking-123", 3)] }

/-- The kind of completion the intent prompt asks the LLM for: a plain JSON
object (no backslashes anywhere). -/
def c1_completion : String :=
  "\x7b\"type\": \"direct_booking\", \"photographer_name\": \"Sarah Johnson\", \"requirements\": \x7b\x7d\x7d"

def c2_package : Package :=
  { id := "pk-1", name := "Basic", price := 500, description := "", is_active := true }

def c2_sarah : PhotographerRow :=
  { id := "ph-1"
    portfolio_style := "wedding"
    location := "New York"
    rating := 5
    is_active := true
    users := { first_name := "Sarah", last_name := "Johnson", email := "sarah@x.com" }
    packages := [c2_package] }

def c2_db : List PhotographerRow := [c2_sarah]

def c2_rec : RecEntry :=
  { id := "ph-1"
    name := "Sarah Johnson"
    email := "sarah@x.com"
    location := "New York"
    rating := 5
    packages := [c2_package]
    min_price := 500
    max_price := 500
    match_score := 75
    match_reason := "Good match, highly rated, lowest price" }

def c2_intent : IntentData :=
  { itype := "recommendation_request"
    photographer_name := ""
    requirements := emptyRequirements
    original_message := some "recommend a wedding photographer" }

def c2_avail : AvailResult := { available := none, reason := none }

def c2_weather : WeatherResult := { good_for_outdoor_shoot := none, condition := "" }

/-- The token-based part of the `_find_photographers_by_name` match
condition (its second and third disjuncts), as a function of the token
list. -/
def partsMatch (parts : List String) (p : PhotographerRow) : Bool :=
  let first_name := pyLower p.users.first_name
  let last_name := pyLower p.users.last_name
  let full_name := pyStrip (first_name ++ " " ++ last_name)
  parts.any (fun part => strIn part full_name) ||
  (parts.length == 1 &&
    (parts.getD 0 "" == first_name || parts.getD 0 "" == last_name))

def c7_row : PhotographerRow :=
  { id := "ph-0"
    portfolio_style := ""
    location := "Austin"
    rating := 0
    is_active := true
    users := { first_name := "", last_name := "", email := "" }
    packages := [{ id := "pk-0", name := "P", price := 100, description := "", is_active := true }] }

def c7_table : List PhotographerRow := [c7_row]

/-- Claim C8: the tool-gateway request function returns an error payload
immediately, with no network call, for an unknown server name; on a known
server it issues a POST when a (truthy) payload is present and a GET
otherwise; and every non-2xx response, timeout, or transport exception is
converted into a dictionary carrying an `error` key.  The embedding is a
total function, so no exception ever reaches the caller. -/
theorem make_request_policy {J : Type} (server endpoint : String)
    (data : Option (List (String × String)))
    (transport : HttpMethod → String → TransportOutcome J) :
    (lookupStr server mcp_base_urls = none →
      make_request server endpoint data transport =
        (.errorDict ("Unknown MCP server: " ++ server) none, none)) ∧
    (∀ base, lookupStr server mcp_base_urls = some base →
      ((make_request server endpoint data transport).2 =
          some (mcp_method data, base ++ endpoint)) ∧
      (data = none → mcp_method data = HttpMethod.get) ∧
      (∀ d, data = some d → d ≠ [] → mcp_method data = HttpMethod.post) ∧
      (∀ status_code body text,
        transport (mcp_method data) (base ++ endpoint) =
          TransportOutcome.response status_code body text →
        ¬(200 ≤ status_code ∧ status_code < 300) →
        isErrorDict (make_request server endpoint data transport).1 = true) ∧
      (transport (mcp_method data) (base ++ endpoint) = TransportOutcome.timeout →
        isErrorDict (make_request server endpoint data transport).1 = true) ∧
      (∀ e, transport (mcp_method data) (base ++ endpoint) = TransportOutcome.exn e →
        isErrorDict (make_request server endpoint data transport).1 = true)) := by
  constructor
  · intro h
    simp [make_request, h]
  · intro base hbase
    refine ⟨?_, ?_, ?_, ?_, ?_, ?_⟩
    · simp only [make_request, hbase]
      cases htr : transport (mcp_method data) (base ++ endpoint) with
      | response status_code body text =>
        by_cases hs : status_code == 200
        · cases body <;> simp [htr, hs]
        · simp [htr, hs]
      | timeout => simp [htr]
      | exn e => simp [htr]
    · intro h; simp [mcp_method, h]
    · intro d hd hne; simp [mcp_method, hd, hne]
    · intro status_code body text htr hrange
      have hs : (status_code == 200) = false := by
        simp only [beq_eq_false_iff_ne, ne_eq]
        intro h; exact hrange (by omega)
      simp only [make_request, hbase, htr, hs]
      simp [isErrorDict]
    · intro htr
      simp [make_request, hbase, htr, isErrorDict]
    · intro e htr
      simp [make_request, hbase, htr, isErrorDict]

/-- Witness for C8 at concrete inputs. -/
theorem make_request_policy_witness :
    (make_request (J := Unit) "search_engine" "/x" none
        (fun _ _ => TransportOutcome.timeout) =
      (.errorDict "Unknown MCP server: search_engine" none, none)) ∧
    (make_request (J := Unit) "weather" "/tools/get_forecast"
        (some [("location", "NY")]) (fun _ _ => TransportOutcome.timeout)).2 =
      some (HttpMethod.post, "http://localhost:8084/tools/get_forecast") ∧
    isErrorDict (make_request (J := Unit) "weather" "/tools/get_forecast"
        (some [("location", "NY")]) (fun _ _ => TransportOutcome.timeout)).1 = true := by
  have h1 := (make_request_policy (J := Unit) "search_engine" "/x" none
    (fun _ _ => TransportOutcome.timeout)).1 (by decide)
  have h2 := (make_request_policy (J := Unit) "weather" "/tools/get_forecast"
    (some [("location", "NY")]) (fun _ _ => TransportOutcome.timeout)).2
    "http://localhost:8084" (by decide)
  refine ⟨h1, ?_, h2.2.2.2.2.1 rfl⟩
  rw [h2.1, h2.2.2.1 [("location", "NY")] rfl (by decide)]
  rfl

/-- Claim C9: for every direct-booking intent whose photographer name
matches zero active photographers with at least one active package, the
workflow responds `success: false`, `type: "photographer_not_found"`,
`suggested_action: "show_recommendations"`, leaving the session alone. -/
theorem direct_booking_not_found (intent : IntentData) (client_id : String)
    (session : SessState) (photographers_table : List PhotographerRow)
    (availability_result : AvailResult) (weather_result : WeatherResult)
    (post_result : PostOutcome)
    (hfind : find_photographers_by_name intent.photographer_name photographers_table = []) :
    handle_direct_booking_step intent client_id session photographers_table
        availability_result weather_result post_result =
      (.ok { baseResponse false "photographer_not_found"
          ("I couldn\x27t find a photographer named \x27" ++ intent.photographer_name ++
            "\x27. Would you like me to show you available photographers instead?") with
          suggested_action := some "show_recommendations" }, session) := by
  simp only [handle_direct_booking_step, hfind]

/-- Witness for C9: the name Sarah Johnson against a table holding only John Doe. -/
theorem direct_booking_not_found_witness :
    (handle_direct_booking_step c9_intent "client-1" initialSession c9_table
        { available := none, reason := none }
        { good_for_outdoor_shoot := none, condition := "" }
        PostOutcome.exn).1 =
      .ok { baseResponse false "photographer_not_found"
          "I couldn\x27t find a photographer named \x27Sarah Johnson\x27. Would you like me to show you available photographers instead?" with
          suggested_action := some "show_recommendations" } := by
  rw [direct_booking_not_found c9_intent "client-1" initialSession c9_table
    { available := none, reason := none }
    { good_for_outdoor_shoot := none, condition := "" }
    PostOutcome.exn (by decide)]
  rfl

/-- Claim C3: in booking creation for a uniquely matched photographer, the
weather result never blocks the booking — `success`, `type` and whether
the booking request is posted are independent of the weather result, which
is attached as advisory metadata at most — while an availability result
reporting `available: false` on a date-specific attempt is hard-blocking:
the run aborts with `success: false`, `type: "not_available"` and a
reason, and no booking request is posted. -/
theorem create_booking_weather_advisory_availability_blocking
    (photographer : MatchRec) (requirements : Requirements) (client_id : String)
    (availability_result : AvailResult) (w1 w2 : WeatherResult)
    (post_result : PostOutcome) :
    ((create_booking photographer requirements client_id availability_result w1 post_result).1.success =
        (create_booking photographer requirements client_id availability_result w2 post_result).1.success ∧
      (create_booking photographer requirements client_id availability_result w1 post_result).1.rtype =
        (create_booking photographer requirements client_id availability_result w2 post_result).1.rtype ∧
      (create_booking photographer requirements client_id availability_result w1 post_result).2 =
        (create_booking photographer requirements client_id availability_result w2 post_result).2) ∧
    (photographer.packages ≠ [] →
      truthyStr requirements.shoot_date = true →
      availability_result.available = some false →
      (create_booking photographer requirements client_id availability_result w1 post_result).1.success = false ∧
      (create_booking photographer requirements client_id availability_result w1 post_result).1.rtype = "not_available" ∧
      (create_booking photographer requirements client_id availability_result w1 post_result).1.reason =
        some (availability_result.reason.getD "Unavailable") ∧
      (create_booking photographer requirements client_id availability_result w1 post_result).2 = false) := by
  constructor
  · cases hpk : photographer.packages with
    | nil => simp [create_booking, hpk]
    | cons pkg rest =>
      cases post_result <;>
        simp only [create_booking, hpk] <;>
        (try split_ifs) <;> simp [baseResponse]
  · intro hne hdate havail
    cases hpk : photographer.packages with
    | nil => exact absurd hpk hne
    | cons pkg rest =>
      have hblock : (truthyStr requirements.shoot_date &&
          !(availability_result.available.getD true)) = true := by
        rw [hdate, havail]; rfl
      simp [create_booking, hpk, hblock, baseResponse]

/-- Witness for C3: a date-specific attempt against an availability result reporting unavailable. -/
theorem create_booking_witness :
    c3_photographer.packages ≠ [] ∧
    truthyStr c3_requirements.shoot_date = true ∧
    (create_booking c3_photographer c3_requirements "client-1" c3_blocked_avail
      { good_for_outdoor_shoot := some false, condition := "storm" } PostOutcome.exn).1.rtype =
        "not_available" ∧
    (create_booking c3_photographer c3_requirements "client-1" c3_blocked_avail
      { good_for_outdoor_shoot := some false, condition := "storm" } PostOutcome.exn).2 = false := by
  have h := (create_booking_weather_advisory_availability_blocking c3_photographer
    c3_requirements "client-1" c3_blocked_avail
    { good_for_outdoor_shoot := some false, condition := "storm" }
    { good_for_outdoor_shoot := some true, condition := "sunny" }
    PostOutcome.exn).2 (by decide) (by decide) rfl
  exact ⟨by decide, by decide, h.2.1, h.2.2.2⟩

/-- Every truthy completed price is positive implies the market average is
positive exactly when the sample is non-empty. -/
theorem analyze_market_average_pos (bookings_table : List BookingRow)
    (service_type location : String)
    (hpos : ∀ b ∈ bookings_table, ∀ q, b.final_price = some q → q ≠ 0 → 0 < q) :
    (0 < (analyze_market bookings_table service_type location).sample_size →
      0 < (analyze_market bookings_table service_type location).average_price) ∧
    ((analyze_market bookings_table service_type location).sample_size = 0 →
      (analyze_market bookings_table service_type location).average_price = 0) := by
  unfold analyze_market
  set bookings := bookings_table.filter (fun b =>
    b.service_type == service_type && b.location == location && b.status == "completed") with hb
  by_cases hbe : bookings.isEmpty
  · simp [hbe]
  · simp only [hbe, if_false, Bool.false_eq_true]
    set prices := bookings.filterMap (fun b =>
      if truthyNum b.final_price then b.final_price else none) with hp
    have hmem : ∀ q ∈ prices, 0 < q := by
      intro q hq
      rw [hp] at hq
      obtain ⟨b, hbmem, hbq⟩ := List.mem_filterMap.mp hq
      by_cases ht : truthyNum b.final_price
      · rw [if_pos ht] at hbq
        have hbt : b ∈ bookings_table := List.mem_of_mem_filter (hb ▸ hbmem)
        have hne : q ≠ 0 := by
          have := ht
          rw [hbq] at this
          simpa [truthyNum] using this
        exact hpos b hbt q hbq hne
      · rw [if_neg ht] at hbq
        exact absurd hbq (by simp)
    by_cases hpe : prices.isEmpty
    · have h0 : prices = [] := by simpa using hpe
      simp [h0]
    · constructor
      · intro _
        simp only [hpe, if_false, Bool.false_eq_true]
        have hne : prices ≠ [] := by
          intro h; rw [h] at hpe; simp at hpe
        have hsum : 0 < prices.sum := List.sum_pos prices hmem hne
        have hlen : 0 < (prices.length : ℚ) := by
          have : 0 < prices.length := List.length_pos.mpr hne
          exact_mod_cast this
        unfold pyMean
        positivity
      · intro h
        simp only [List.isEmpty_eq_true] at hpe
        simp only [List.length_eq_zero] at h
        exact absurd h hpe

/-- Claim C5: when the pricing LLM completion contains no numeric value, or
its first decimal number lies outside `[50, 10000]`, `calculate_optimal_price`
falls back to the market average when `sample_size > 0` and otherwise to
`200 * duration_hours`; in particular, for `duration_hours = 3` with no
market data the suggested price is 600.  The hypothesis `hpos` states that
recorded completed-booking prices are positive, under which the code
branch `average_price > 0` coincides with `sample_size > 0`. -/
theorem pricing_extract_fallback
    (bookings_table : List BookingRow) (service_type location llm_response : String)
    (duration_hours : ℚ)
    (hpos : ∀ b ∈ bookings_table, ∀ q, b.final_price = some q → q ≠ 0 → 0 < q)
    (hnum : ∀ p, extract_price_value llm_response = some p → p < 50 ∨ 10000 < p) :
    (extract_price llm_response (analyze_market bookings_table service_type location)
        duration_hours =
      if 0 < (analyze_market bookings_table service_type location).sample_size then
        (analyze_market bookings_table service_type location).average_price
      else 200 * duration_hours) ∧
    extract_price llm_response (analyze_market [] service_type location) 3 = 600 := by
  have hfall : ∀ (md : MarketData) (dur : ℚ), extract_price llm_response md dur =
      if md.average_price > 0 then md.average_price else 200 * dur := by
    intro md dur
    cases hv : extract_price_value llm_response with
    | none => simp [extract_price, hv]
    | some p =>
      have hnot : ¬(50 ≤ p ∧ p ≤ 10000) := by
        rcases hnum p hv with h | h
        · intro hc; linarith [hc.1]
        · intro hc; linarith [hc.2]
      simp only [extract_price, hv, if_neg hnot]
  have havg := analyze_market_average_pos bookings_table service_type location hpos
  constructor
  · rw [hfall]
    by_cases hs : 0 < (analyze_market bookings_table service_type location).sample_size
    · rw [if_pos (havg.1 hs), if_pos hs]
    · have h0 : (analyze_market bookings_table service_type location).sample_size = 0 := by
        omega
      rw [havg.2 h0, if_neg (lt_irrefl 0), if_neg hs]
  · have hzero : analyze_market [] service_type location =
        { average_price := 0, median_price := 0, min_price := 0, max_price := 0,
          sample_size := 0 } := rfl
    rw [hfall, hzero]
    norm_num

/-- Witness for C5: no market data, a completion without numbers, duration 3. -/
theorem pricing_extract_fallback_witness :
    extract_price "I cannot give a numeric answer" (analyze_market [] "portrait" "New York") 3 = 600 :=
  (pricing_extract_fallback [] "portrait" "New York" "I cannot give a numeric answer" 3
    (by intro b hb; simp at hb)
    (by
      intro p hp
      rw [show extract_price_value "I cannot give a numeric answer" = none from by decide] at hp
      exact absurd hp (by simp))).2

/-- Claim C4, counterexample: on a table holding one inactive photographer
in the request location, the code includes its estimate (the query never
filters on `is_active`), while the claim as stated would return no
competitor prices. -/
theorem competitor_prices_counterexample :
    get_competitor_prices c4_table "p1" "Austin" 2 = [100] ∧
    spec_competitor_prices c4_table "p1" "Austin" 2 = [] := by
  constructor
  · simp +decide [get_competitor_prices, c4_table]
  · decide

/-- `filterMap` of a guarded function splits into a filter then `filterMap`. -/
theorem filterMap_guard_eq {α β : Type} (l : List α) (p : α → Bool) (g : α → Option β) :
    l.filterMap (fun a => if p a then g a else none) = (l.filter p).filterMap g := by
  induction l with
  | nil => rfl
  | cons r rest ih =>
    by_cases h : p r = true
    · rw [List.filter_cons_of_pos h]
      rw [List.filterMap_cons, List.filterMap_cons, if_pos h, ih]
    · rw [List.filter_cons_of_neg (by simpa using h)]
      rw [List.filterMap_cons, if_neg h, ih]

/-- `filterMap` keeping positive values of `f` is `map` then `filter`. -/
theorem filterMap_pos_eq {α : Type} (l : List α) (f : α → ℚ) :
    l.filterMap (fun a => if f a > 0 then some (f a) else none) =
      (l.map f).filter (fun q => q > 0) := by
  induction l with
  | nil => rfl
  | cons r rest ih =>
    rw [List.filterMap_cons, List.map_cons]
    by_cases h : f r > 0
    · rw [if_pos h, List.filter_cons_of_pos (by simpa using h), ih]
    · rw [if_neg h, List.filter_cons_of_neg (by simpa using h), ih]

/-- Two successive filters fuse. -/
theorem filter_and_eq {α : Type} (l : List α) (p q : α → Bool) :
    (l.filter p).filter q = l.filter (fun a => p a && q a) := by
  induction l with
  | nil => rfl
  | cons r rest ih =>
    by_cases hp : p r = true
    · by_cases hq : q r = true
      · rw [List.filter_cons_of_pos hp, List.filter_cons_of_pos hq,
          List.filter_cons_of_pos (by simp [hp, hq]), ih]
      · rw [List.filter_cons_of_pos hp, List.filter_cons_of_neg (by simpa using hq),
          List.filter_cons_of_neg (by simp [hp, hq]), ih]
    · rw [List.filter_cons_of_neg (by simpa using hp),
        List.filter_cons_of_neg (by simp [hp]), ih]

/-- Claim C4, amended: `get_competitor_prices` sets `competitor_prices` to
the estimated total price `base_price + hourly_rate * duration_hours` of
every other photographer — active or not — located in the request
location, keeping only strictly positive estimates. -/
theorem competitor_prices_amended (photographers_table : List PhotographerPriceRow)
    (photographer_id location : String) (duration_hours : ℚ) :
    get_competitor_prices photographers_table photographer_id location duration_hours =
      amended_competitor_prices photographers_table photographer_id location duration_hours := by
  have hA := filterMap_guard_eq
    (photographers_table.filter (fun r => r.location == location))
    (fun r => r.id != photographer_id)
    (fun r =>
      if r.base_price + r.hourly_rate * duration_hours > 0 then
        some (r.base_price + r.hourly_rate * duration_hours)
      else none)
  have hB := filterMap_pos_eq
    ((photographers_table.filter (fun r => r.location == location)).filter
      (fun r => r.id != photographer_id))
    (fun r => r.base_price + r.hourly_rate * duration_hours)
  have hC := filter_and_eq photographers_table
    (fun r => r.location == location) (fun r => r.id != photographer_id)
  calc get_competitor_prices photographers_table photographer_id location duration_hours
      = _ := hA
    _ = _ := hB
    _ = amended_competitor_prices photographers_table photographer_id location duration_hours := by
        rw [hC]; rfl

/-- Claim C6: holding the photographer (price, location, packages), the
requirements and the pool price bounds fixed, the match score is
monotonically non-decreasing in the rating; and for every input the match
score is at most 100. -/
theorem match_score_monotone_in_rating_and_capped
    (photographer : PhotographerRow) (requirements : Requirements)
    (r1 r2 photographer_min_price pool_min_price pool_max_price : ℚ)
    (h : r1 ≤ r2) :
    (calculate_match_score_with_price_context { photographer with rating := r1 }
        requirements photographer_min_price pool_min_price pool_max_price ≤
      calculate_match_score_with_price_context { photographer with rating := r2 }
        requirements photographer_min_price pool_min_price pool_max_price) ∧
    (∀ (p : PhotographerRow) (req : Requirements) (a b c : ℚ),
      calculate_match_score_with_price_context p req a b c ≤ 100) := by
  constructor
  · simp only [calculate_match_score_with_price_context]
    have hbase : r1 / 5 * 60 ≤ r2 / 5 * 60 := by linarith
    refine min_le_min ?_ le_rfl
    split_ifs <;> linarith
  · intro p req a b c
    simp only [calculate_match_score_with_price_context]
    exact min_le_right _ _

/-- Witness for C6 at ratings 3 and 4. -/
theorem match_score_monotone_witness :
    (3 : ℚ) ≤ 4 ∧
    calculate_match_score_with_price_context { c9_row with rating := 3 }
        emptyRequirements 150 150 150 ≤
      calculate_match_score_with_price_context { c9_row with rating := 4 }
        emptyRequirements 150 150 150 :=
  ⟨by norm_num,
    (match_score_monotone_in_rating_and_capped c9_row
      emptyRequirements 3 4 150 150 150 (by norm_num)).1⟩

/-- Keys of `alSet`: unchanged when the key is present, appended otherwise. -/
theorem alKeys_alSet {V : Type} (k' : String) (v : V) (l : List (String × V)) :
    alKeys (alSet k' v l) =
      if alContains k' l then alKeys l else alKeys l ++ [k'] := by
  unfold alSet alKeys
  by_cases hc : alContains k' l = true
  · rw [if_pos hc, if_pos hc, List.map_map]
    refine List.map_congr_left ?_
    intro p _
    by_cases hp : (p.1 == k') = true
    · have : p.1 = k' := by simpa using hp
      simp [Function.comp, hp, this]
    · simp [Function.comp, hp]
  · rw [if_neg hc, if_neg hc]
    simp

/-- Keys of `alErase`: the other keys. -/
theorem alKeys_alErase {V : Type} (k' : String) (l : List (String × V)) :
    alKeys (alErase k' l) = (alKeys l).filter (fun a => a != k') := by
  unfold alErase alKeys
  induction l with
  | nil => rfl
  | cons x rest ih =>
    by_cases h : (x.1 != k') = true
    · simp [List.filter_cons, h, ih]
    · simp [List.filter_cons, h, ih]

/-- Membership in the keys after a whole fold of erasures. -/
theorem mem_alKeys_foldl_alErase {V : Type} (k : String) (ids : List String)
    (m : List (String × V)) :
    k ∈ alKeys (ids.foldl (fun l i => alErase i l) m) ↔
      k ∉ ids ∧ k ∈ alKeys m := by
  induction ids generalizing m with
  | nil => simp
  | cons i rest ih =>
    rw [List.foldl_cons, ih, alKeys_alErase]
    simp only [List.mem_filter, List.mem_cons, bne_iff_ne, ne_eq]
    constructor
    · rintro ⟨hni, hk, hne⟩
      exact ⟨by rintro (rfl | h) <;> [exact hne rfl; exact hni h], hk⟩
    · rintro ⟨hni, hk⟩
      exact ⟨fun h => hni (Or.inr h), hk, fun h => hni (Or.inl h)⟩

/-- `alContains` agrees with key membership. -/
theorem alContains_iff_mem {V : Type} (k : String) (l : List (String × V)) :
    alContains k l = true ↔ k ∈ alKeys l := by
  unfold alContains alKeys
  simp only [List.any_eq_true, List.mem_map, beq_iff_eq]

/-- `sameKeysB` holds exactly when the two key sets coincide. -/
theorem sameKeysB_iff {V W : Type} (l1 : List (String × V)) (l2 : List (String × W)) :
    sameKeysB l1 l2 = true ↔ (∀ k, k ∈ alKeys l1 ↔ k ∈ alKeys l2) := by
  unfold sameKeysB
  rw [Bool.and_eq_true]
  simp only [List.all_eq_true, alContains_iff_mem]
  constructor
  · rintro ⟨h1, h2⟩ k
    exact ⟨fun hk => h1 k hk, fun hk => h2 k hk⟩
  · intro h
    exact ⟨fun k hk => (h k).mp hk, fun k hk => (h k).mpr hk⟩

/-- Key membership after `alSet`. -/
theorem mem_alKeys_alSet {V : Type} (k k' : String) (v : V) (l : List (String × V)) :
    k ∈ alKeys (alSet k' v l) ↔ k = k' ∨ k ∈ alKeys l := by
  rw [alKeys_alSet]
  by_cases hc : alContains k' l = true
  · rw [if_pos hc]
    constructor
    · exact Or.inr
    · rintro (rfl | h)
      · exact (alContains_iff_mem k l).mp hc
      · exact h
  · rw [if_neg hc]
    simp [or_comm]

/-- Key membership after `alErase`. -/
theorem mem_alKeys_alErase {V : Type} (k k' : String) (l : List (String × V)) :
    k ∈ alKeys (alErase k' l) ↔ k ≠ k' ∧ k ∈ alKeys l := by
  rw [alKeys_alErase]
  simp [List.mem_filter, and_comm]

/-- The invariant, characterised by key membership. -/
theorem session_maps_invariant_iff (s : SessionManagerState) :
    session_maps_invariant s = true ↔
      (∀ k, k ∈ alKeys s.sessions ↔ k ∈ alKeys s.session_metadata) ∧
      (∀ k, k ∈ alKeys s.sessions ↔ k ∈ alKeys s.last_activity) := by
  unfold session_maps_invariant
  rw [Bool.and_eq_true, sameKeysB_iff, sameKeysB_iff]

/-- Claim C10: the three internal maps of `SessionManager` always hold
exactly the same set of session ids: starting from a state satisfying the
invariant, `add_message`, `get_session_history`, `clear_session` and the
background cleanup sweep each preserve it. -/
theorem session_manager_operations_preserve_invariant (s : SessionManagerState)
    (session_id message_type content : String)
    (metadata : Option (List (String × String))) (now timeout : ℕ)
    (hinv : session_maps_invariant s = true) :
    session_maps_invariant (add_message s session_id message_type content metadata now) = true ∧
    session_maps_invariant (get_session_history s session_id now).1 = true ∧
    session_maps_invariant (clear_session s session_id).1 = true ∧
    session_maps_invariant (cleanup_inactive_sessions s now timeout).1 = true := by
  rw [session_maps_invariant_iff] at hinv
  obtain ⟨hm, hl⟩ := hinv
  refine ⟨?_, ?_, ?_, ?_⟩
  · unfold add_message
    by_cases hc : alContains session_id s.sessions = true
    · have h3 := (alContains_iff_mem session_id s.sessions).mp hc
      rw [session_maps_invariant_iff]
      simp only [hc, Bool.not_true, if_false, Bool.false_eq_true]
      refine ⟨fun k => ?_, fun k => ?_⟩
      · rw [mem_alKeys_alSet]
        constructor
        · rintro (rfl | h)
          · exact (hm k).mp h3
          · exact (hm k).mp h
        · intro h
          exact Or.inr ((hm k).mpr h)
      · rw [mem_alKeys_alSet, mem_alKeys_alSet]
        constructor
        · rintro (rfl | h)
          · exact Or.inl rfl
          · exact Or.inr ((hl k).mp h)
        · rintro (rfl | h)
          · exact Or.inl rfl
          · exact Or.inr ((hl k).mpr h)
    · rw [session_maps_invariant_iff]
      simp only [hc, Bool.not_false, if_true, Bool.false_eq_true]
      refine ⟨fun k => ?_, fun k => ?_⟩
      · rw [mem_alKeys_alSet, mem_alKeys_alSet, mem_alKeys_alSet]
        constructor
        · rintro (rfl | rfl | h)
          · exact Or.inl rfl
          · exact Or.inl rfl
          · exact Or.inr ((hm k).mp h)
        · rintro (rfl | h)
          · exact Or.inl rfl
          · exact Or.inr (Or.inr ((hm k).mpr h))
      · rw [mem_alKeys_alSet, mem_alKeys_alSet, mem_alKeys_alSet]
        constructor
        · rintro (rfl | rfl | h)
          · exact Or.inl rfl
          · exact Or.inl rfl
          · exact Or.inr ((hl k).mp h)
        · rintro (rfl | h)
          · exact Or.inl rfl
          · exact Or.inr (Or.inr ((hl k).mpr h))
  · unfold get_session_history
    by_cases hc : alContains session_id s.sessions = true
    · have h3 := (alContains_iff_mem session_id s.sessions).mp hc
      simp only [hc, Bool.not_true, if_false, Bool.false_eq_true]
      rw [session_maps_invariant_iff]
      refine ⟨hm, fun k => ?_⟩
      rw [mem_alKeys_alSet]
      constructor
      · intro h
        exact Or.inr ((hl k).mp h)
      · rintro (rfl | h)
        · exact h3
        · exact (hl k).mpr h
    · simp only [hc, Bool.not_false, if_true]
      rw [session_maps_invariant_iff]
      exact ⟨hm, hl⟩
  · unfold clear_session
    by_cases hc : alContains session_id s.sessions = true
    · simp only [hc, if_true]
      rw [session_maps_invariant_iff]
      refine ⟨fun k => ?_, fun k => ?_⟩
      · rw [mem_alKeys_alErase, mem_alKeys_alErase]
        exact and_congr Iff.rfl (hm k)
      · rw [mem_alKeys_alErase, mem_alKeys_alErase]
        exact and_congr Iff.rfl (hl k)
    · simp only [hc, if_false, Bool.false_eq_true]
      rw [session_maps_invariant_iff]
      exact ⟨hm, hl⟩
  · unfold cleanup_inactive_sessions
    rw [session_maps_invariant_iff]
    refine ⟨fun k => ?_, fun k => ?_⟩
    · rw [mem_alKeys_foldl_alErase, mem_alKeys_foldl_alErase]
      exact and_congr Iff.rfl (hm k)
    · rw [mem_alKeys_foldl_alErase, mem_alKeys_foldl_alErase]
      exact and_congr Iff.rfl (hl k)

/-- Witness for C10: one stored session, then a message added for a new session. -/
theorem session_manager_invariant_witness :
    session_maps_invariant c10_state = true ∧
    session_maps_invariant
      (add_message c10_state "session-2" "reminder" "Shoot is tomorrow" none 10) = true :=
  ⟨by decide,
    (session_manager_operations_preserve_invariant c10_state "session-2" "reminder"
      "Shoot is tomorrow" none 10 30 (by decide)).1⟩

/-- Claim C1 (code bug): the completion below is a brace-delimited JSON
object of exactly the shape the intent prompt requests, yet the scan
`re.search` with the raw pattern `\\{.*\\}` — which demands a literal
backslash before each brace — finds nothing in it, so the intent becomes
`unclear` no matter how `json.loads` would behave, contradicting the claim
that a brace-delimited JSON object in the completion becomes the intent. -/
theorem analyze_intent_never_extracts_plain_json :
    c1_completion.data.head? = some '\x7b' ∧
    c1_completion.data.getLast? = some '\x7d' ∧
    reSearchBsBraces c1_completion = none ∧
    ∀ loads : String → Option IntentData,
      analyze_intent "I want to book Sarah Johnson" initialSession c1_completion loads =
        unclearIntent "I want to book Sarah Johnson" := by
  refine ⟨by decide, by decide, by decide, ?_⟩
  intro loads
  have h : reSearchBsBraces c1_completion = none := by decide
  simp [analyze_intent, initialSession, h]

theorem c2_score_eval :
    calculate_match_score_with_price_context c2_sarah emptyRequirements 500 500 500 = 75 := by
  simp +decide [calculate_match_score_with_price_context, c2_sarah, emptyRequirements, pyLower]
  norm_num

theorem c2_reason_eval :
    generate_match_reason c2_sarah emptyRequirements 75 500 500 =
      "Good match, highly rated, lowest price" := by
  simp +decide [generate_match_reason, c2_sarah, emptyRequirements, pyLower]
  norm_num
  rfl

theorem c2_recommendations_eval :
    get_photographer_recommendations c2_db emptyRequirements = [c2_rec] := by
  have hactive : c2_sarah.is_active = true := rfl
  have hap : active_packages c2_sarah = [c2_package] := rfl
  have hname : pyTitle (pyStrip (c2_sarah.users.first_name ++ " " ++
      c2_sarah.users.last_name)) = "Sarah Johnson" := rfl
  have hmin : listMin (List.map (fun p => p.price) [c2_package]) = 500 := rfl
  have hmax : listMax (List.map (fun p => p.price) [c2_package]) = 500 := rfl
  have hid : c2_sarah.id = "ph-1" := rfl
  have hemail : c2_sarah.users.email = "sarah@x.com" := rfl
  have hloc : c2_sarah.location = "New York" := rfl
  have hrating : c2_sarah.rating = 5 := rfl
  simp only [get_photographer_recommendations, c2_db, List.filter_cons, hactive,
    if_true, List.filter_nil, List.filterMap_cons, List.filterMap_nil, hap,
    List.isEmpty_cons, hname, hmin, hmax]
  simp only [List.map_cons, List.map_nil, listMin, listMax, List.foldl_nil]
  simp +decide [c2_score_eval, c2_reason_eval, hid, hemail, hloc, hrating,
    sortByScoreDesc, insertDescBy, c2_rec]

/-- Claim C2 (code bug): on a database with one matching photographer the
recommendation handler does store `step = "showing_options"` together with
the ranked candidate list in the session (before dying on the
`portfolio_style` key error), but the next turn with the selection message
`"1"` produces a response that is identical for every stored
recommendation list — the selection path never reads the list back; it
re-queries the photographers table with `"1"` as a name and answers
`photographer_not_found`. -/
theorem recommendation_roundtrip_broken :
    (get_photographer_recommendations c2_db emptyRequirements).length = 1 ∧
    (handle_recommendation_step c2_intent initialSession c2_db).1 =
      .keyError "portfolio_style" ∧
    (handle_recommendation_step c2_intent initialSession c2_db).2.step =
      "showing_options" ∧
    (handle_recommendation_step c2_intent initialSession c2_db).2.recommendations =
      get_photographer_recommendations c2_db emptyRequirements ∧
    (∀ recsA recsB : List RecEntry,
      (run_booking_turn "1" "client-1"
          { step := "showing_options", recommendations := recsA,
            original_requirements := some emptyRequirements,
            photographer_matches := [], original_intent := none }
          c2_db "" (fun _ => none) c2_avail c2_weather PostOutcome.exn).1 =
        (run_booking_turn "1" "client-1"
          { step := "showing_options", recommendations := recsB,
            original_requirements := some emptyRequirements,
            photographer_matches := [], original_intent := none }
          c2_db "" (fun _ => none) c2_avail c2_weather PostOutcome.exn).1) ∧
    (run_booking_turn "1" "client-1"
        (handle_recommendation_step c2_intent initialSession c2_db).2
        c2_db "" (fun _ => none) c2_avail c2_weather PostOutcome.exn).1 =
      .ok { baseResponse false "photographer_not_found"
          "I couldn\x27t find a photographer named \x271\x27. Would you like me to show you available photographers instead?" with
          suggested_action := some "show_recommendations" } := by
  have hrec : get_photographer_recommendations c2_db emptyRequirements = [c2_rec] :=
    c2_recommendations_eval
  have hhandle : handle_recommendation_step c2_intent initialSession c2_db =
      (.keyError "portfolio_style",
        { step := "showing_options", recommendations := [c2_rec],
          original_requirements := some emptyRequirements,
          photographer_matches := [], original_intent := none }) := by
    simp [handle_recommendation_step, c2_intent, hrec, initialSession]
  refine ⟨by rw [hrec]; rfl, by rw [hhandle], by rw [hhandle], by rw [hhandle, hrec], ?_, ?_⟩
  · intro recsA recsB
    rfl
  · rw [hhandle]
    rfl

/-- `charsIn` is exactly the infix relation. -/
theorem charsIn_spec (needle hay : List Char) :
    charsIn needle hay = true ↔ needle <:+: hay := by
  unfold charsIn
  rw [List.any_eq_true, List.infix_iff_prefix_suffix]
  constructor
  · rintro ⟨t, ht, hp⟩
    exact ⟨t, List.isPrefixOf_iff_prefix.mp hp, (List.mem_tails t hay).mp ht⟩
  · rintro ⟨t, hp, ht⟩
    exact ⟨t, (List.mem_tails t hay).mpr ht, List.isPrefixOf_iff_prefix.mpr hp⟩

/-- On an all-whitespace input `pySplitAux` only flushes its accumulator. -/
theorem pySplitAux_all_ws (cs : List Char) (hws : ∀ c ∈ cs, wsChar c = true) :
    ∀ acc, pySplitAux cs acc = if acc = [] then [] else [acc.reverse] := by
  induction cs with
  | nil => intro acc; rfl
  | cons c rest ih =>
    intro acc
    have hc : wsChar c = true := hws c (List.mem_cons_self c rest)
    have hrest : ∀ c ∈ rest, wsChar c = true := fun x hx => hws x (List.mem_cons_of_mem c hx)
    by_cases ha : acc = []
    · subst ha
      simp only [pySplitAux, hc, if_true]
      rw [ih hrest []]
      rfl
    · simp only [pySplitAux, hc, if_true, if_neg ha]
      rw [ih hrest []]
      rfl

/-- An all-whitespace suffix does not change `pySplitAux`. -/
theorem pySplitAux_append_ws (suffix : List Char)
    (hws : ∀ c ∈ suffix, wsChar c = true) :
    ∀ (l : List Char) (acc : List Char),
      pySplitAux (l ++ suffix) acc = pySplitAux l acc := by
  intro l
  induction l with
  | nil =>
    intro acc
    rw [List.nil_append, pySplitAux_all_ws suffix hws acc]
    rfl
  | cons c rest ih =>
    intro acc
    by_cases hc : wsChar c = true
    · by_cases ha : acc = []
      · subst ha
        simp only [List.cons_append, pySplitAux, hc, if_true]
        exact ih []
      · simp only [List.cons_append, pySplitAux, hc, if_true, if_neg ha]
        exact congrArg (acc.reverse :: ·) (ih [])
    · simp only [List.cons_append, pySplitAux, hc, if_false, Bool.false_eq_true]
      exact ih (c :: acc)

/-- Leading whitespace does not change `pySplitAux` with empty accumulator. -/
theorem pySplitAux_dropWhile_ws (cs : List Char) :
    pySplitAux (cs.dropWhile wsChar) [] = pySplitAux cs [] := by
  induction cs with
  | nil => rfl
  | cons c rest ih =>
    by_cases hc : wsChar c = true
    · rw [List.dropWhile_cons_of_pos hc, ih]
      simp only [pySplitAux, hc, if_true]
    · rw [List.dropWhile_cons_of_neg (by simpa using hc)]

/-- Stripping does not change `pySplitAux` with empty accumulator. -/
theorem pySplitAux_strip (cs : List Char) :
    pySplitAux (pyStripChars cs) [] = pySplitAux cs [] := by
  unfold pyStripChars
  have hdecomp : cs.dropWhile wsChar =
      ((cs.dropWhile wsChar).reverse.dropWhile wsChar).reverse ++
        ((cs.dropWhile wsChar).reverse.takeWhile wsChar).reverse := by
    have h := List.takeWhile_append_dropWhile (p := wsChar) (l := (cs.dropWhile wsChar).reverse)
    calc cs.dropWhile wsChar
        = (cs.dropWhile wsChar).reverse.reverse := (List.reverse_reverse _).symm
      _ = ((cs.dropWhile wsChar).reverse.takeWhile wsChar ++
            (cs.dropWhile wsChar).reverse.dropWhile wsChar).reverse := by rw [h]
      _ = ((cs.dropWhile wsChar).reverse.dropWhile wsChar).reverse ++
            ((cs.dropWhile wsChar).reverse.takeWhile wsChar).reverse := by
            rw [List.reverse_append]
  have hws : ∀ c ∈ ((cs.dropWhile wsChar).reverse.takeWhile wsChar).reverse,
      wsChar c = true := by
    intro c hc
    exact List.mem_takeWhile_imp (List.mem_reverse.mp hc)
  calc pySplitAux ((cs.dropWhile wsChar).reverse.dropWhile wsChar).reverse []
      = pySplitAux (((cs.dropWhile wsChar).reverse.dropWhile wsChar).reverse ++
          ((cs.dropWhile wsChar).reverse.takeWhile wsChar).reverse) [] := by
        rw [pySplitAux_append_ws _ hws]
    _ = pySplitAux (cs.dropWhile wsChar) [] := by rw [← hdecomp]
    _ = pySplitAux cs [] := pySplitAux_dropWhile_ws cs

/-- Every token produced by `pySplitAux` is an infix of the input (with the
pending accumulator restored in front). -/
theorem pySplitAux_infix (cs : List Char) :
    ∀ (acc p : List Char), p ∈ pySplitAux cs acc → p <:+: (acc.reverse ++ cs) := by
  induction cs with
  | nil =>
    intro acc p hp
    by_cases ha : acc = []
    · subst ha
      simp [pySplitAux] at hp
    · simp only [pySplitAux, if_neg ha, List.mem_singleton] at hp
      subst hp
      exact ⟨[], [], by simp⟩
  | cons c rest ih =>
    intro acc p hp
    by_cases hc : wsChar c = true
    · by_cases ha : acc = []
      · subst ha
        simp only [pySplitAux, hc, if_true] at hp
        have := ih [] p hp
        simp only [List.reverse_nil, List.nil_append] at this ⊢
        exact this.trans ⟨[c], [], by simp⟩
      · simp only [pySplitAux, hc, if_true, if_neg ha, List.mem_cons] at hp
        rcases hp with rfl | hp
        · exact ⟨[], c :: rest, by simp⟩
        · have := ih [] p hp
          simp only [List.reverse_nil, List.nil_append] at this
          exact this.trans ⟨acc.reverse ++ [c], [], by simp⟩
    · simp only [pySplitAux, hc, Bool.false_eq_true, if_false] at hp
      have := ih (c :: acc) p hp
      simpa [List.reverse_cons, List.append_assoc] using this

/-- `pySplitAux` with a pending token never returns no tokens. -/
theorem pySplitAux_acc_ne_nil (cs : List Char) :
    ∀ acc, acc ≠ [] → pySplitAux cs acc ≠ [] := by
  induction cs with
  | nil =>
    intro acc ha
    simp [pySplitAux, ha]
  | cons c rest ih =>
    intro acc ha
    by_cases hc : wsChar c = true
    · simp only [pySplitAux, hc, if_true, if_neg ha]
      simp
    · simp only [pySplitAux, hc, Bool.false_eq_true, if_false]
      exact ih (c :: acc) (by simp)

/-- The head surviving `dropWhile` fails the predicate. -/
theorem dropWhile_head_false (p : Char → Bool) (cs : List Char) (c : Char)
    (rest : List Char) (h : cs.dropWhile p = c :: rest) : p c = false := by
  induction cs with
  | nil => simp at h
  | cons a as ih =>
    by_cases hp : p a = true
    · rw [List.dropWhile_cons_of_pos hp] at h
      exact ih h
    · rw [List.dropWhile_cons_of_neg (by simpa using hp)] at h
      cases h
      simpa using hp

/-- The left-stripped input splits as the fully stripped input followed by
trailing whitespace. -/
theorem pyStripChars_decomp (cs : List Char) :
    cs.dropWhile wsChar = pyStripChars cs ++
      ((cs.dropWhile wsChar).reverse.takeWhile wsChar).reverse := by
  unfold pyStripChars
  have h := List.takeWhile_append_dropWhile (p := wsChar) (l := (cs.dropWhile wsChar).reverse)
  calc cs.dropWhile wsChar
      = (cs.dropWhile wsChar).reverse.reverse := (List.reverse_reverse _).symm
    _ = ((cs.dropWhile wsChar).reverse.takeWhile wsChar ++
          (cs.dropWhile wsChar).reverse.dropWhile wsChar).reverse := by rw [h]
    _ = ((cs.dropWhile wsChar).reverse.dropWhile wsChar).reverse ++
          ((cs.dropWhile wsChar).reverse.takeWhile wsChar).reverse := by
        rw [List.reverse_append]

/-- A non-empty stripped input yields at least one token. -/
theorem pySplitAux_ne_nil_of_strip_ne_nil (cs : List Char)
    (h : pyStripChars cs ≠ []) : pySplitAux cs [] ≠ [] := by
  rw [← pySplitAux_strip]
  cases hs : pyStripChars cs with
  | nil => exact absurd hs h
  | cons c rest =>
    have hd := pyStripChars_decomp cs
    rw [hs] at hd
    have hcws : wsChar c = false := dropWhile_head_false wsChar cs c _ hd
    simp only [pySplitAux, hcws, Bool.false_eq_true, if_false]
    exact pySplitAux_acc_ne_nil rest [c] (by simp)

/-- The stripped input is an infix of the input. -/
theorem pyStripChars_within (cs : List Char) : pyStripChars cs <:+: cs := by
  have h1 : pyStripChars cs <+: cs.dropWhile wsChar :=
    ⟨((cs.dropWhile wsChar).reverse.takeWhile wsChar).reverse, (pyStripChars_decomp cs).symm⟩
  have h2 : cs.dropWhile wsChar <:+ cs := List.dropWhile_suffix wsChar
  exact List.infix_iff_prefix_suffix.mpr ⟨cs.dropWhile wsChar, h1, h2⟩

/-- For an input with a non-empty strip, the whole match condition reduces
to the token-based condition over the tokens of the stripped, lowered
input: the full-name-equality disjunct is subsumed, because when it holds
every token of the input is a substring of the full name. -/
theorem nameMatches_eq_partsMatch (n : String) (p : PhotographerRow)
    (hne : pyStripChars (pyLower n).data ≠ []) :
    nameMatches n p =
      partsMatch ((pySplitAux (pyStripChars (pyLower n).data) []).map String.mk) p := by
  have hsplit : pySplit (pyLower n) =
      (pySplitAux (pyStripChars (pyLower n).data) []).map String.mk := by
    unfold pySplit
    rw [pySplitAux_strip]
  simp only [nameMatches, partsMatch, hsplit]
  cases hc1 : (pyLower n == pyStrip (pyLower p.users.first_name ++ " " ++
      pyLower p.users.last_name)) with
  | false => rw [Bool.false_or]
  | true =>
    rw [Bool.true_or]
    have heq : pyLower n = pyStrip (pyLower p.users.first_name ++ " " ++
        pyLower p.users.last_name) := eq_of_beq hc1
    have hparts_ne : pySplitAux (pyStripChars (pyLower n).data) [] ≠ [] := by
      rw [pySplitAux_strip]
      exact pySplitAux_ne_nil_of_strip_ne_nil _ hne
    obtain ⟨p0, hp0⟩ := List.exists_mem_of_ne_nil _ hparts_ne
    have hinfix : p0 <:+: (pyLower n).data := by
      have h1 := pySplitAux_infix (pyStripChars (pyLower n).data) [] p0 hp0
      simp only [List.reverse_nil, List.nil_append] at h1
      exact h1.trans (pyStripChars_within _)
    have hstr : strIn (String.mk p0) (pyStrip (pyLower p.users.first_name ++ " " ++
        pyLower p.users.last_name)) = true := by
      unfold strIn
      rw [charsIn_spec]
      rw [← heq]
      exact hinfix
    have hany : ((pySplitAux (pyStripChars (pyLower n).data) []).map String.mk).any
        (fun part => strIn part (pyStrip (pyLower p.users.first_name ++ " " ++
          pyLower p.users.last_name))) = true := by
      rw [List.any_eq_true]
      exact ⟨String.mk p0, List.mem_map_of_mem String.mk hp0, hstr⟩
    rw [hany, Bool.true_or]

/-- `nameMatches` depends on the input name only through its lowering. -/
theorem nameMatches_congr_lower (n1 n2 : String) (p : PhotographerRow)
    (h : pyLower n1 = pyLower n2) : nameMatches n1 p = nameMatches n2 p := by
  unfold nameMatches
  rw [h]

/-- Claim C7, counterexample: for a photographer whose user record has
empty first and last names, the inputs `""` and `" "` differ only in
leading/trailing whitespace, yet the lookup returns the photographer for
the first input and nothing for the second (the full-name-equality
disjunct compares the unstripped input). -/
theorem fuzzy_name_whitespace_counterexample :
    pyStrip (pyLower "") = pyStrip (pyLower " ") ∧
    (find_photographers_by_name "" c7_table).map MatchRec.id = ["ph-0"] ∧
    (find_photographers_by_name " " c7_table).map MatchRec.id = [] := by
  refine ⟨by decide, by decide, by decide⟩

/-- Claim C7, amended: the fuzzy name lookup returns the same candidate
list when the inputs differ only in letter case; it returns the same
candidate list when the inputs differ only in leading/trailing whitespace
provided the input is non-empty after trimming; and any active
photographer with at least one active package whose full name equals the
input case-insensitively is always included. -/
theorem fuzzy_name_lookup_amended :
    (∀ (photographers_table : List PhotographerRow) (n1 n2 : String),
      pyLower n1 = pyLower n2 →
      find_photographers_by_name n1 photographers_table =
        find_photographers_by_name n2 photographers_table) ∧
    (∀ (photographers_table : List PhotographerRow) (n1 n2 : String),
      pyStrip (pyLower n1) = pyStrip (pyLower n2) →
      pyStrip (pyLower n1) ≠ "" →
      find_photographers_by_name n1 photographers_table =
        find_photographers_by_name n2 photographers_table) ∧
    (∀ (photographers_table : List PhotographerRow) (n : String) (p : PhotographerRow),
      p ∈ photographers_table → p.is_active = true → active_packages p ≠ [] →
      pyLower n = fullNameOf p →
      p.id ∈ (find_photographers_by_name n photographers_table).map MatchRec.id) := by
  refine ⟨?_, ?_, ?_⟩
  · intro photographers_table n1 n2 h
    unfold find_photographers_by_name
    refine List.filterMap_congr ?_
    intro p _
    rw [nameMatches_congr_lower n1 n2 p h]
  · intro photographers_table n1 n2 hstrip hne
    have hdata : pyStripChars (pyLower n1).data = pyStripChars (pyLower n2).data := by
      have := congrArg String.data hstrip
      simpa [pyStrip] using this
    have hne1 : pyStripChars (pyLower n1).data ≠ [] := by
      intro h0
      apply hne
      unfold pyStrip
      rw [h0]
    have hne2 : pyStripChars (pyLower n2).data ≠ [] := by
      rw [← hdata]; exact hne1
    unfold find_photographers_by_name
    refine List.filterMap_congr ?_
    intro p _
    rw [nameMatches_eq_partsMatch n1 p hne1, nameMatches_eq_partsMatch n2 p hne2, hdata]
  · intro photographers_table n p hmem hactive hpkg hname
    have hmatch : nameMatches n p = true := by
      have heq : (pyLower n == pyStrip (pyLower p.users.first_name ++ " " ++
          pyLower p.users.last_name)) = true := beq_iff_eq.mpr (hname.trans rfl)
      simp only [nameMatches]
      rw [heq, Bool.true_or, Bool.true_or]
    have hfilter : p ∈ photographers_table.filter (·.is_active) :=
      List.mem_filter.mpr ⟨hmem, hactive⟩
    have hsome : (fun p => if nameMatches n p then
        if (active_packages p).isEmpty then none else some (mkMatchRec p)
      else none) p = some (mkMatchRec p) := by
      simp only [hmatch, if_true]
      rw [if_neg (by simpa using hpkg)]
    have : mkMatchRec p ∈ find_photographers_by_name n photographers_table := by
      unfold find_photographers_by_name
      exact List.mem_filterMap.mpr ⟨p, hfilter, hsome⟩
    exact List.mem_map_of_mem MatchRec.id this

/-- Witness for C7 on concrete casings and paddings of Sarah Johnson. -/
theorem fuzzy_name_lookup_amended_witness :
    (pyLower "SARAH JOHNSON" = pyLower "sarah johnson" ∧
      find_photographers_by_name "SARAH JOHNSON" c2_db =
        find_photographers_by_name "sarah johnson" c2_db) ∧
    (pyStrip (pyLower "  Sarah Johnson ") = pyStrip (pyLower "sarah johnson") ∧
      pyStrip (pyLower "  Sarah Johnson ") ≠ "" ∧
      find_photographers_by_name "  Sarah Johnson " c2_db =
        find_photographers_by_name "sarah johnson" c2_db) ∧
    (pyLower "Sarah Johnson" = fullNameOf c2_sarah ∧
      c2_sarah.id ∈ (find_photographers_by_name "Sarah Johnson" c2_db).map MatchRec.id) := by
  refine ⟨⟨by decide, ?_⟩, ⟨by decide, by decide, ?_⟩, ⟨by decide, ?_⟩⟩
  · exact fuzzy_name_lookup_amended.1 c2_db "SARAH JOHNSON" "sarah johnson" (by decide)
  · exact fuzzy_name_lookup_amended.2.1 c2_db "  Sarah Johnson " "sarah johnson"
      (by decide) (by decide)
  · exact fuzzy_name_lookup_amended.2.2 c2_db "Sarah Johnson" c2_sarah
      (by decide) (by decide) (by decide) (by decide)
